import Mathlib

/-!
Verification development for the input-embedding layers of a
speech-transformer model (`src/model/modules/input_layer.py`).

The tensor code is shallowly embedded:
* one batch element's feature sequence is a `List (List ℝ)` (time × feature);
* a boolean validity mask is a `List Bool`; an optional mask is `Option (List Bool)`;
* a tensor's dtype/device pair is an opaque `Kind` (numeric conversion between
  kinds is value-preserving in this real-valued model);
* operations that raise a runtime error return `none`.

Convolution outputs and the subsampler are tracked at the shape level (time
lengths and masks), which is exactly what the corresponding claims are about;
learned linear maps are opaque parameters.
-/

namespace InputLayerModel

/-- The (dtype, device) pair of a tensor, as an opaque numeric kind. -/
structure Kind where
  dtype : ℕ
  device : ℕ
deriving DecidableEq, Repr

/-- Default kind of `torch.tensor(0.0)`: float32 on cpu. -/
def defaultKind : Kind := ⟨0, 0⟩

/-- State of a `PositionalEncoding` module: `d_model` and the cached table
`self.pe` (`none` models `self.pe = None`), carrying its kind and rows. -/
structure PEState where
  d_model : ℕ
  pe : Option (Kind × List (List ℝ))

/-- `div_term[i] = exp((2 i) * (-log(10000) / d_model))`, from
`torch.exp(torch.arange(0, self.d_model, 2) * -(math.log(10000.0) / self.d_model))`.
The Python float division raises `ZeroDivisionError` at `d_model = 0`; that
error path is modelled by `PositionalEncoding_init_checked` (constructor
failure), so this total real-valued formula is only consulted for
`d_model > 0`. -/
noncomputable def divTerm (D i : ℕ) : ℝ := Real.exp ((2 * i : ℝ) * (-(Real.log 10000) / D))

/-- Row `p` of the sinusoidal table: column `j` is
`sin(p * div_term[j/2])` for even `j` and `cos(p * div_term[j/2])` for odd `j`,
from `pe[:, 0::2] = torch.sin(position * div_term)` and
`pe[:, 1::2] = torch.cos(position * div_term)`. -/
noncomputable def peRow (D p : ℕ) : List ℝ :=
  (List.range D).map (fun j =>
    if j % 2 = 0 then Real.sin (p * divTerm D (j / 2))
    else Real.cos (p * divTerm D (j / 2)))

/-- The rebuilt table `pe` of `torch.zeros(x.size(1), d_model)` filled with the
sinusoid rows for positions `0 .. L-1`. -/
noncomputable def peTable (D L : ℕ) : List (List ℝ) := (List.range L).map (peRow D)

/-- `PositionalEncoding.extend_pe(x)` where `xlen = x.size(1)` and `xk` is the
kind of `x`.  If a table is cached and its capacity `self.pe.size(1)` is at
least `xlen`, the cached values are kept (converted to `xk` via `.to()` when
the kinds differ) and the method returns; otherwise the table is rebuilt in
full from the sinusoidal formula and moved to `xk`. -/
noncomputable def extend_pe : PEState → ℕ → Kind → PEState
  | ⟨d, some (k, tbl)⟩, xlen, xk =>
      if xlen ≤ tbl.length then
        if k.dtype ≠ xk.dtype ∨ k.device ≠ xk.device then
          ⟨d, some (xk, tbl)⟩
        else ⟨d, some (k, tbl)⟩
      else ⟨d, some (xk, peTable d xlen)⟩
  | ⟨d, none⟩, xlen, xk => ⟨d, some (xk, peTable d xlen)⟩

/-- The rows of the cached table (empty when `self.pe is None`). -/
def tableOf (s : PEState) : List (List ℝ) :=
  match s.pe with
  | some (_, tbl) => tbl
  | none => []

/-- `PositionalEncoding.__init__`: sets `d_model` and calls
`extend_pe(torch.tensor(0.0).expand(1, max_len))`. -/
noncomputable def PositionalEncoding_init (D max_len : ℕ) (k : Kind) : PEState :=
  extend_pe { d_model := D, pe := none } max_len k

/-- `PositionalEncoding.__init__` with the Python error path made explicit:
`__init__` always enters the rebuild branch of `extend_pe` (no table is
cached yet), whose `math.log(10000.0) / self.d_model` raises
`ZeroDivisionError` when `d_model = 0`; for `d_model ≠ 0` it builds the
module state as `PositionalEncoding_init` does. -/
noncomputable def PositionalEncoding_init_checked (D max_len : ℕ) (k : Kind) :
    Option PEState :=
  if D = 0 then none else some (PositionalEncoding_init D max_len k)

/-- `PositionalEncoding.forward(x)` (dropout disabled, i.e. identity):
`extend_pe(x)` then `x * self.xscale + self.pe[:, :x.size(1)]` with
`xscale = sqrt(d_model)`.  Returns the updated state and the output rows. -/
noncomputable def PositionalEncoding_forward (s : PEState) (xk : Kind) (x : List (List ℝ)) :
    PEState × List (List ℝ) :=
  let s2 := extend_pe s x.length xk
  let pos := (tableOf s2).take x.length
  (s2, List.zipWith
    (fun row pr => List.zipWith (fun v e => v * Real.sqrt s.d_model + e) row pr)
    x pos)

/-- `ScaledPositionalEncoding.forward(x)` (dropout disabled):
`extend_pe(x)` then `x + self.alpha * self.pe[:, :x.size(1)]`. -/
noncomputable def ScaledPositionalEncoding_forward (s : PEState) (xk : Kind) (alpha : ℝ)
    (x : List (List ℝ)) : PEState × List (List ℝ) :=
  let s2 := extend_pe s x.length xk
  let pos := (tableOf s2).take x.length
  (s2, List.zipWith
    (fun row pr => List.zipWith (fun v e => v + alpha * e) row pr)
    x pos)

/-- Output length of `t.nn.Conv2d(_, _, 3, 2)` along one dimension: PyTorch
raises (`Kernel size can't be greater than actual input size`) when the input
is shorter than the kernel, and otherwise yields `(n - 3) / 2 + 1` positions. -/
def conv2dOutLen (n : ℕ) : Option ℕ :=
  if 3 ≤ n then some ((n - 3) / 2 + 1) else none

/-- Elements at indices `0, 2, 4, ...` of a list (Python step-2 slicing). -/
def everySecond : List α → List α
  | [] => []
  | [a] => [a]
  | a :: _ :: rest => a :: everySecond rest

/-- Python `m[:-2:2]`: drop the last two elements, then take every second. -/
def strideSlice (m : List Bool) : List Bool :=
  everySecond (m.take (m.length - 2))

/-- `Conv2dSubsampling.forward(x, x_mask)` at the shape level, for an input of
time length `T` and frequency length `F` (equal to the configured `idim`, so
the flattening linear layer's shape always matches).  The two stride-2
convolutions run first and raise (`none`) on undersized inputs; the features
are tracked by their time length; the mask, when present, is reduced by
`x_mask[:, :-2:2][:, :-2:2]`, and an absent mask stays absent. -/
def Conv2dSubsampling_forward (T F : ℕ) (mask : Option (List Bool)) :
    Option (ℕ × Option (List Bool)) :=
  match conv2dOutLen T, conv2dOutLen F with
  | some t1, some f1 =>
      match conv2dOutLen t1, conv2dOutLen f1 with
      | some t2, some _ => some (t2, mask.map (fun m => strideSlice (strideSlice m)))
      | _, _ => none
  | _, _ => none

/-- The spec's claimed subsampled time length
`⌊(⌊(T-3)/2⌋ + 1 - 3)/2⌋ + 1`, with Python floor division. -/
def subFormula (T : ℤ) : ℤ := (((T - 3).fdiv 2 + 1 - 3).fdiv 2 + 1)

/-- `net.masked_fill_(~mask.unsqueeze(-1), 0.0)`: rows at positions whose mask
bit is false are overwritten with zeros; rows with a true bit are untouched. -/
def masked_fill (mask : List Bool) (net : List (List ℝ)) : List (List ℝ) :=
  List.zipWith (fun mb row => if mb then row else List.replicate row.length 0) mask net

/-- The tail of `Input_layer.forward` (and `Input_layer2.forward`) after the
core returns `(net, mask)`: `net.masked_fill_(~mask.unsqueeze(-1), 0.0)`.
A `None` mask makes `~mask` raise a `TypeError` (`none` here); otherwise the
zeroed features and the mask are returned. -/
def Input_layer_mask_step (net : List (List ℝ)) (mask : Option (List Bool)) :
    Option (List (List ℝ) × List Bool) :=
  match mask with
  | none => none
  | some m => some (masked_fill m net, m)

/-- `LinearWithPosEmbedding.forward(inputs, mask)`: the learned
`nn.Linear` is an opaque map `linearMap`; then the scaled positional encoding
is applied; the mask is passed through unchanged. -/
noncomputable def LinearWithPosEmbedding_forward
    (linearMap : List (List ℝ) → List (List ℝ)) (s : PEState) (k : Kind)
    (alpha : ℝ) (inputs : List (List ℝ)) (mask : Option (List Bool)) :
    (PEState × List (List ℝ)) × Option (List Bool) :=
  (ScaledPositionalEncoding_forward s k alpha (linearMap inputs), mask)

/-- `Input_layer.forward` on the `layer_type='linear'` path: delegate to
`LinearWithPosEmbedding.forward`, then run the masked-fill step. -/
noncomputable def Input_layer_forward_linear
    (linearMap : List (List ℝ) → List (List ℝ)) (s : PEState) (k : Kind)
    (alpha : ℝ) (inputs : List (List ℝ)) (mask : Option (List Bool)) :
    Option (List (List ℝ) × List Bool) :=
  let r := LinearWithPosEmbedding_forward linearMap s k alpha inputs mask
  Input_layer_mask_step r.1.2 r.2

/-- `Input_layer.forward` on the subsampler path, at the shape level:
delegate to `Conv2dSubsampling.forward`, then run the masked-fill step
(which only needs the mask to decide whether `~mask` raises). -/
def Input_layer_forward_sub (T F : ℕ) (mask : Option (List Bool)) :
    Option (ℕ × List Bool) :=
  match Conv2dSubsampling_forward T F mask with
  | none => none
  | some (_, none) => none
  | some (t, some m) => some (t, m)

/-- A learned linear layer, which owns a `weight` attribute. -/
structure LinearLayer where
  inFeatures : ℕ
  outFeatures : ℕ
deriving DecidableEq, Repr

/-- The `self.linear` attribute of the two projector variants: a bare
`nn.Linear` in `LinearWithPosEmbedding`, an `nn.Sequential(Linear, LayerNorm,
Dropout, Gelu)` container in `LinearWithPosEmbedding2`. -/
inductive ProjLinear where
  | plain (l : LinearLayer)
  | seq (l : LinearLayer)
deriving DecidableEq, Repr

/-- Python attribute lookup `self.linear.weight`: a `Linear` module exposes its
weight matrix; an `nn.Sequential` container defines no `weight` attribute, so
the lookup raises `AttributeError` (`none`). -/
def weightAttr : ProjLinear → Option (ℕ × ℕ)
  | .plain l => some (l.inFeatures, l.outFeatures)
  | .seq _ => none

/-- `LinearWithPosEmbedding.__init__`: builds `nn.Linear(input_size, d_model)`
and applies `nn.init.xavier_normal_(self.linear.weight)`. -/
def LinearWithPosEmbedding_init (input_size d_model : ℕ) : Option ProjLinear :=
  let lin := ProjLinear.plain ⟨input_size, d_model⟩
  (weightAttr lin).map (fun _ => lin)

/-- `LinearWithPosEmbedding2.__init__`: builds the `nn.Sequential` container
and then applies `nn.init.xavier_normal_(self.linear.weight)`. -/
def LinearWithPosEmbedding2_init (input_size d_model : ℕ) : Option ProjLinear :=
  let lin := ProjLinear.seq ⟨input_size, d_model⟩
  (weightAttr lin).map (fun _ => lin)

/-- The core selected by an input layer. -/
inductive InputCore where
  | projector (p : ProjLinear)
  | subsampler (idim odim : ℕ)
deriving DecidableEq, Repr

/-- `Input_layer2.__init__(input_size, d_model, dropout_rate, layer_type)`:
`layer_type == 'linear'` selects `LinearWithPosEmbedding2`, anything else the
`Conv2dSubsampling` core. -/
def Input_layer2_init (input_size d_model : ℕ) (layer_type : String) :
    Option InputCore :=
  if layer_type = "linear" then
    (LinearWithPosEmbedding2_init input_size d_model).map .projector
  else some (.subsampler input_size d_model)

@[simp] theorem peTable_length (D L : ℕ) : (peTable D L).length = L := by
  simp [peTable]

theorem everySecond_length : ∀ (l : List α), (everySecond l).length = (l.length + 1) / 2
  | [] => by norm_num [everySecond]
  | [_] => by norm_num [everySecond]
  | _ :: _ :: rest => by
      simp [everySecond, everySecond_length rest]
      omega

theorem strideSlice_length (m : List Bool) :
    (strideSlice m).length = (m.length - 2 + 1) / 2 := by
  simp [strideSlice, everySecond_length]

/-- With an absent mask, the subsampler either raises or returns an absent
mask next to the subsampled features. -/
theorem conv_forward_absent_mask (T F : ℕ) :
    Conv2dSubsampling_forward T F none = none ∨
    ∃ t, Conv2dSubsampling_forward T F none = some (t, none) := by
  cases hT : conv2dOutLen T <;> cases hF : conv2dOutLen F <;>
    simp [Conv2dSubsampling_forward, hT, hF]
  case some.some t1 f1 =>
    cases h2 : conv2dOutLen t1 <;> cases h3 : conv2dOutLen f1 <;> simp [h2, h3]

/-- C1 (corrected): the claimed identity between the subsampled time length,
the floor formula `⌊(⌊(T-3)/2⌋+1-3)/2⌋+1` and the twice-reduced mask length
holds for `T ∈ {8, 9, 20}`, but for `T ∈ {1, 4, 5}` the strided convolutions
reject the input (time extent smaller than the kernel, in the first or second
convolution), so `forward` raises instead of returning features. -/
theorem conv2dSubsampling_output_lengths (m : List Bool) :
    (m.length = 8 → Conv2dSubsampling_forward 8 40 (some m) =
        some (1, some (strideSlice (strideSlice m))) ∧
        (1 : ℤ) = subFormula 8 ∧ (strideSlice (strideSlice m)).length = 1)
    ∧ (m.length = 9 → Conv2dSubsampling_forward 9 40 (some m) =
        some (1, some (strideSlice (strideSlice m))) ∧
        (1 : ℤ) = subFormula 9 ∧ (strideSlice (strideSlice m)).length = 1)
    ∧ (m.length = 20 → Conv2dSubsampling_forward 20 40 (some m) =
        some (4, some (strideSlice (strideSlice m))) ∧
        (4 : ℤ) = subFormula 20 ∧ (strideSlice (strideSlice m)).length = 4)
    ∧ Conv2dSubsampling_forward 1 40 (some m) = none
    ∧ Conv2dSubsampling_forward 4 40 (some m) = none
    ∧ Conv2dSubsampling_forward 5 40 (some m) = none := by
  refine ⟨fun h => ⟨?_, by decide, ?_⟩, fun h => ⟨?_, by decide, ?_⟩,
    fun h => ⟨?_, by decide, ?_⟩, ?_, ?_, ?_⟩ <;>
    simp [Conv2dSubsampling_forward, conv2dOutLen, strideSlice_length, *]

/-- Witness for `conv2dSubsampling_output_lengths` at the all-true mask of
length 8. -/
theorem conv2dSubsampling_output_lengths_witness :
    Conv2dSubsampling_forward 8 40 (some (List.replicate 8 true)) =
      some (1, some (strideSlice (strideSlice (List.replicate 8 true)))) ∧
    (1 : ℤ) = subFormula 8 ∧
    (strideSlice (strideSlice (List.replicate 8 true))).length = 1 :=
  (conv2dSubsampling_output_lengths (List.replicate 8 true)).1 (by decide)

/-- C1 counterexample: at `T = 1` the code raises (first convolution kernel
exceeds the input's time extent) and returns no features, while the claimed
formula evaluates to `-1`. -/
theorem conv2dSubsampling_time1_rejects :
    Conv2dSubsampling_forward 1 40 (some (List.replicate 1 true)) = none ∧
    subFormula 1 = -1 := by decide

/-- C7: with an absent input mask the subsampler never fabricates a mask —
whenever it returns, the returned mask is absent next to the subsampled
features, and on adequately sized inputs (`T, F ≥ 7`) it does return. -/
theorem conv2dSubsampling_absent_mask (T F : ℕ) :
    (Conv2dSubsampling_forward T F none = none ∨
      ∃ t, Conv2dSubsampling_forward T F none = some (t, none))
    ∧ (7 ≤ T → 7 ≤ F →
      ∃ t, Conv2dSubsampling_forward T F none = some (t, none)) := by
  refine ⟨conv_forward_absent_mask T F, fun hT hF => ?_⟩
  refine ⟨((T - 3) / 2 + 1 - 3) / 2 + 1, ?_⟩
  have c1 : conv2dOutLen T = some ((T - 3) / 2 + 1) := by
    rw [conv2dOutLen, if_pos (by omega)]
  have c2 : conv2dOutLen F = some ((F - 3) / 2 + 1) := by
    rw [conv2dOutLen, if_pos (by omega)]
  have c3 : conv2dOutLen ((T - 3) / 2 + 1) =
      some (((T - 3) / 2 + 1 - 3) / 2 + 1) := by
    rw [conv2dOutLen, if_pos (by omega)]
  have c4 : conv2dOutLen ((F - 3) / 2 + 1) =
      some (((F - 3) / 2 + 1 - 3) / 2 + 1) := by
    rw [conv2dOutLen, if_pos (by omega)]
  simp [Conv2dSubsampling_forward, c1, c2, c3, c4]

/-- Witness for `conv2dSubsampling_absent_mask` at `T = 20`, `F = 40`. -/
theorem conv2dSubsampling_absent_mask_witness :
    ∃ t, Conv2dSubsampling_forward 20 40 none = some (t, none) :=
  (conv2dSubsampling_absent_mask 20 40).2 (by decide) (by decide)

/-- C8: on the linear path, a null mask makes `Input_layer.forward` fail
fatally (the unconditional `~mask` raises), for every choice of weights,
positional-encoder state and input — never a silently accepted default. -/
theorem input_layer_linear_null_mask_fatal :
    ∀ (linearMap : List (List ℝ) → List (List ℝ)) (s : PEState) (k : Kind)
      (alpha : ℝ) (inputs : List (List ℝ)),
      Input_layer_forward_linear linearMap s k alpha inputs none = none := by
  intro linearMap s k alpha inputs
  rfl

/-- C9: `LinearWithPosEmbedding2.__init__` applies the weight initializer to
`self.linear.weight`, but `self.linear` is a `Sequential` container without a
`weight` attribute, so construction always raises; hence `Input_layer2` with
`layer_type = 'linear'` can never be instantiated (while the plain
`LinearWithPosEmbedding` constructor succeeds). -/
theorem linearWithPosEmbedding2_init_fails :
    ∀ input_size d_model : ℕ,
      LinearWithPosEmbedding2_init input_size d_model = none ∧
      Input_layer2_init input_size d_model "linear" = none ∧
      LinearWithPosEmbedding_init input_size d_model ≠ none := by
  intro i d
  refine ⟨rfl, ?_, ?_⟩ <;>
    simp [Input_layer2_init, LinearWithPosEmbedding2_init,
      LinearWithPosEmbedding_init, weightAttr]

/-- C10: a null mask makes `Input_layer.forward` fail on both cores: the
linear path and the subsampler path alike, since `~mask` is computed
unconditionally after the core returns — the subsampler's absent-mask case is
unreachable through `Input_layer`. -/
theorem input_layer_null_mask_fails_all_paths :
    (∀ (linearMap : List (List ℝ) → List (List ℝ)) (s : PEState) (k : Kind)
        (alpha : ℝ) (inputs : List (List ℝ)),
        Input_layer_forward_linear linearMap s k alpha inputs none = none)
    ∧ (∀ T F : ℕ, Input_layer_forward_sub T F none = none) := by
  constructor
  · intro linearMap s k alpha inputs; rfl
  · intro T F
    rcases conv_forward_absent_mask T F with h | ⟨t, h⟩ <;>
      simp [Input_layer_forward_sub, h]

/-- Cache hit: when the requested length fits the cached capacity, the cached
rows are kept, only the kind is moved to the request's kind. -/
theorem extend_pe_fit (d : ℕ) (k1 k2 : Kind) (t : List (List ℝ)) (n : ℕ)
    (hn : n ≤ t.length) :
    extend_pe ⟨d, some (k1, t)⟩ n k2 = ⟨d, some (k2, t)⟩ := by
  simp only [extend_pe]
  rw [if_pos hn]
  split_ifs with hk
  · rfl
  · push_neg at hk
    cases k1; cases k2
    simp_all

/-- Cache miss: when the requested length exceeds the cached capacity, the
table is rebuilt in full. -/
theorem extend_pe_grow (d : ℕ) (k1 k2 : Kind) (t : List (List ℝ)) (n : ℕ)
    (hn : t.length < n) :
    extend_pe ⟨d, some (k1, t)⟩ n k2 = ⟨d, some (k2, peTable d n)⟩ := by
  simp only [extend_pe]
  rw [if_neg (by omega)]

/-- C2 (corrected): `extend_pe` is a pure no-op on a cache hit with matching
kind; when the requested length exceeds the capacity (or no table exists) the
table is rebuilt in full from the sinusoidal formula; but on a cache hit with
a *different* kind the cached values are merely converted (kept, with the old
— possibly larger — capacity), not rebuilt from position 0; and two calls with
non-increasing lengths leave the cached values unchanged. -/
theorem extend_pe_cache_policy (d len : ℕ) (k kx : Kind) (tbl : List (List ℝ)) :
    (len ≤ tbl.length →
      extend_pe ⟨d, some (k, tbl)⟩ len kx = ⟨d, some (kx, tbl)⟩)
    ∧ (tbl.length < len →
      extend_pe ⟨d, some (k, tbl)⟩ len kx = ⟨d, some (kx, peTable d len)⟩)
    ∧ extend_pe ⟨d, none⟩ len kx = ⟨d, some (kx, peTable d len)⟩
    ∧ (∀ (len2 : ℕ) (kx2 : Kind), len2 ≤ len →
      tableOf (extend_pe (extend_pe ⟨d, some (k, tbl)⟩ len kx) len2 kx2) =
        tableOf (extend_pe ⟨d, some (k, tbl)⟩ len kx)) := by
  refine ⟨extend_pe_fit d k kx tbl len, extend_pe_grow d k kx tbl len, rfl,
    fun len2 kx2 hle => ?_⟩
  by_cases hc : len ≤ tbl.length
  · rw [extend_pe_fit d k kx tbl len hc,
      extend_pe_fit d kx kx2 tbl len2 (le_trans hle hc)]
    rfl
  · push_neg at hc
    rw [extend_pe_grow d k kx tbl len hc,
      extend_pe_fit d kx kx2 (peTable d len) len2 (by simpa using hle)]
    rfl

/-- Witness for `extend_pe_cache_policy`: a capacity-3 table serves a length-2
request with a new kind by conversion, values untouched. -/
theorem extend_pe_cache_policy_witness :
    extend_pe ⟨2, some (⟨0, 0⟩, peTable 2 3)⟩ 2 ⟨1, 0⟩ =
      ⟨2, some (⟨1, 0⟩, peTable 2 3)⟩ :=
  (extend_pe_cache_policy 2 2 ⟨0, 0⟩ ⟨1, 0⟩ (peTable 2 3)).1 (by simp)

/-- C2 counterexample: starting from a freshly built capacity-4 table, a
length-2 request with a different dtype does *not* replace the cache with the
table rebuilt from position 0 (which would have 2 rows); the code keeps the
4-row table and only converts it. -/
theorem extend_pe_kind_mismatch_not_rebuilt :
    (extend_pe (extend_pe ⟨2, none⟩ 4 ⟨0, 0⟩) 2 ⟨1, 0⟩).pe ≠
      some (⟨1, 0⟩, peTable 2 2) ∧
    (extend_pe (extend_pe ⟨2, none⟩ 4 ⟨0, 0⟩) 2 ⟨1, 0⟩).pe =
      some (⟨1, 0⟩, peTable 2 4) := by
  have h1 : extend_pe (⟨2, none⟩ : PEState) 4 ⟨0, 0⟩ =
      ⟨2, some (⟨0, 0⟩, peTable 2 4)⟩ := rfl
  have h2 : extend_pe (⟨2, some (⟨0, 0⟩, peTable 2 4)⟩ : PEState) 2 ⟨1, 0⟩ =
      ⟨2, some (⟨1, 0⟩, peTable 2 4)⟩ := by
    simp only [extend_pe]
    rw [if_pos (by simp), if_pos (by simp)]
  rw [h1, h2]
  refine ⟨fun h => ?_, rfl⟩
  have h4 : peTable 2 4 = peTable 2 2 := by
    simpa [Prod.ext_iff] using h
  have := congrArg List.length h4
  simp at this

/-- C5: monotonic growth — extending a freshly built capacity-`L1` table to a
larger `L2` rebuilds a table whose first `L1` rows coincide with the previous
table's rows. -/
theorem extend_pe_monotonic_growth (d L1 L2 : ℕ) (k : Kind) (h : L1 < L2) :
    (tableOf (extend_pe (extend_pe ⟨d, none⟩ L1 k) L2 k)).take L1 =
      tableOf (extend_pe ⟨d, none⟩ L1 k) := by
  have h1 : extend_pe (⟨d, none⟩ : PEState) L1 k = ⟨d, some (k, peTable d L1)⟩ := rfl
  have h2 : extend_pe (⟨d, some (k, peTable d L1)⟩ : PEState) L2 k =
      ⟨d, some (k, peTable d L2)⟩ :=
    extend_pe_grow d k k (peTable d L1) L2 (by simpa using h)
  rw [h1, h2]
  show (peTable d L2).take L1 = peTable d L1
  rw [peTable, peTable, ← List.map_take, List.take_range,
    Nat.min_eq_left (le_of_lt h)]

/-- Witness for `extend_pe_monotonic_growth` at `d = 2`, `L1 = 1`, `L2 = 2`. -/
theorem extend_pe_monotonic_growth_witness :
    (tableOf (extend_pe (extend_pe ⟨2, none⟩ 1 ⟨0, 0⟩) 2 ⟨0, 0⟩)).take 1 =
      tableOf (extend_pe ⟨2, none⟩ 1 ⟨0, 0⟩) :=
  extend_pe_monotonic_growth 2 1 2 ⟨0, 0⟩ (by decide)

/-- The spec's claimed angular frequency `ω_i = 10000^(-2i/D)`. -/
noncomputable def omegaSpec (D i : ℕ) : ℝ := (10000 : ℝ) ^ (-((2 * i : ℝ) / D))

/-- The code's `div_term[i]` equals the spec's `ω_i`. -/
theorem divTerm_eq_omegaSpec (D i : ℕ) : divTerm D i = omegaSpec D i := by
  rw [divTerm, omegaSpec, Real.rpow_def_of_pos (by norm_num : (0 : ℝ) < 10000)]
  congr 1
  ring

/-- C3: in the table built by `extend_pe`, for even `D`, row `p < L` has
`sin(p·ω_i)` in column `2i` and `cos(p·ω_i)` in column `2i+1`, with
`ω_i = 10000^(-2i/D)`, for every `i < D/2`. -/
theorem pe_table_sinusoid (D L p i : ℕ) (hD : D % 2 = 0) (hp : p < L)
    (hi : i < D / 2) :
    ∃ row, (tableOf (extend_pe ⟨D, none⟩ L defaultKind)).get? p = some row ∧
      row.get? (2 * i) = some (Real.sin (p * omegaSpec D i)) ∧
      row.get? (2 * i + 1) = some (Real.cos (p * omegaSpec D i)) := by
  have hrow : (tableOf (extend_pe ⟨D, none⟩ L defaultKind)).get? p =
      some (peRow D p) := by
    show (peTable D L).get? p = some (peRow D p)
    rw [peTable, List.get?_map, List.get?_range hp]
    rfl
  refine ⟨peRow D p, hrow, ?_, ?_⟩
  · have h2i : 2 * i < D := by omega
    rw [peRow, List.get?_map, List.get?_range h2i]
    simp only [Option.map_some']
    rw [if_pos (by omega : 2 * i % 2 = 0),
      (by omega : 2 * i / 2 = i), divTerm_eq_omegaSpec]
  · have h2i : 2 * i + 1 < D := by omega
    rw [peRow, List.get?_map, List.get?_range h2i]
    simp only [Option.map_some']
    rw [if_neg (by omega : ¬(2 * i + 1) % 2 = 0),
      (by omega : (2 * i + 1) / 2 = i), divTerm_eq_omegaSpec]

/-- Witness for `pe_table_sinusoid` at `D = 2`, `L = 1`, `p = 0`, `i = 0`. -/
theorem pe_table_sinusoid_witness :
    ∃ row, (tableOf (extend_pe ⟨2, none⟩ 1 defaultKind)).get? 0 = some row ∧
      row.get? (2 * 0) = some (Real.sin ((0 : ℕ) * omegaSpec 2 0)) ∧
      row.get? (2 * 0 + 1) = some (Real.cos ((0 : ℕ) * omegaSpec 2 0)) :=
  pe_table_sinusoid 2 1 0 0 (by decide) (by decide) (by decide)

/-- C4: the masking step of `Input_layer.forward` zeroes exactly the rows at
mask-false positions and leaves mask-true rows untouched. -/
theorem input_layer_masking (net : List (List ℝ)) (m : List Bool)
    (hlen : net.length = m.length) (p : ℕ) :
    ∃ out, Input_layer_mask_step net (some m) = some out ∧ out.2 = m ∧
      (m.get? p = some false →
        ∃ row, net.get? p = some row ∧
          out.1.get? p = some (List.replicate row.length 0)) ∧
      (m.get? p = some true → out.1.get? p = net.get? p) := by
  refine ⟨(masked_fill m net, m), rfl, rfl, ?_, ?_⟩
  · intro hm
    have hp : p < m.length := (List.get?_eq_some.mp hm).choose
    have hpn : p < net.length := by omega
    refine ⟨net.get ⟨p, hpn⟩, List.get?_eq_get hpn, ?_⟩
    rw [masked_fill, List.get?_zipWith', hm, List.get?_eq_get hpn]
    simp
  · intro hm
    have hp : p < m.length := (List.get?_eq_some.mp hm).choose
    have hpn : p < net.length := by omega
    rw [masked_fill, List.get?_zipWith', hm, List.get?_eq_get hpn]
    simp

/-- Witness for `input_layer_masking` on a two-step batch with mask
`[true, false]`, checked at position 1. -/
theorem input_layer_masking_witness :
    ∃ out, Input_layer_mask_step [[(1 : ℝ)], [2]] (some [true, false]) =
        some out ∧ out.2 = [true, false] ∧
      ([true, false].get? 1 = some false →
        ∃ row, [[(1 : ℝ)], [2]].get? 1 = some row ∧
          out.1.get? 1 = some (List.replicate row.length 0)) ∧
      ([true, false].get? 1 = some true →
        out.1.get? 1 = [[(1 : ℝ)], [2]].get? 1) :=
  input_layer_masking [[(1 : ℝ)], [2]] [true, false] rfl 1

theorem peTable_take_one (D L : ℕ) (hL : 0 < L) :
    (peTable D L).take 1 = [peRow D 0] := by
  rw [peTable, ← List.map_take, List.take_range, Nat.min_eq_left hL]
  simp [List.range_succ]

theorem peRow_get_zero (D : ℕ) (hD : 0 < D) :
    (peRow D 0).get? 0 = some 0 := by
  rw [peRow, List.get?_map, List.get?_range hD]
  simp

theorem replicate_get_zero (D : ℕ) (hD : 0 < D) :
    (List.replicate D (1 : ℝ)).get? 0 = some 1 := by
  have h : 0 < (List.replicate D (1 : ℝ)).length := by simpa using hD
  rw [List.get?_eq_get h]
  simp

/-- C6: with alpha fixed at 1.0 and dropout disabled, the scaled and
unscaled forwards are interchangeable only when the `sqrt D` scale factor is
1: for every even `D ≠ 1` whose encoder can be constructed at all —
construction raises `ZeroDivisionError` exactly at `D = 0`, as the first
conjunct records — the scale is not 1 and some input distinguishes the two
outputs. -/
theorem scaled_vs_unscaled_diverge (D : ℕ) (hD : D % 2 = 0) (hD1 : D ≠ 1)
    (s : PEState)
    (hs : PositionalEncoding_init_checked D 5000 defaultKind = some s) :
    PositionalEncoding_init_checked 0 5000 defaultKind = none ∧
    Real.sqrt D ≠ 1 ∧
    ∃ x : List (List ℝ),
      (ScaledPositionalEncoding_forward s defaultKind 1 x).2 ≠
      (PositionalEncoding_forward s defaultKind x).2 := by
  have hD0 : 0 < D := by
    rcases Nat.eq_zero_or_pos D with h0 | h
    · rw [h0, PositionalEncoding_init_checked, if_pos rfl] at hs
      cases hs
    · exact h
  have h2 : 2 ≤ D := by omega
  have hseq : s = PositionalEncoding_init D 5000 defaultKind := by
    rw [PositionalEncoding_init_checked, if_neg (by omega)] at hs
    exact (Option.some.inj hs).symm
  subst hseq
  refine ⟨by rw [PositionalEncoding_init_checked, if_pos rfl], ?_⟩
  have hsq : Real.sqrt D ≠ 1 := by
    intro h
    have hD1 : (D : ℝ) = 1 := Real.sqrt_eq_one.mp h
    have : D = 1 := by exact_mod_cast hD1
    omega
  refine ⟨hsq, [List.replicate D (1 : ℝ)], ?_⟩
  have hs : extend_pe (PositionalEncoding_init D 5000 defaultKind)
      ([List.replicate D (1 : ℝ)]).length defaultKind =
      ⟨D, some (defaultKind, peTable D 5000)⟩ := by
    show extend_pe ⟨D, some (defaultKind, peTable D 5000)⟩ 1 defaultKind = _
    exact extend_pe_fit D defaultKind defaultKind (peTable D 5000) 1
      (by rw [peTable_length]; omega)
  intro heq
  simp only [ScaledPositionalEncoding_forward, PositionalEncoding_forward, hs] at heq
  have htbl : tableOf ⟨D, some (defaultKind, peTable D 5000)⟩ = peTable D 5000 := by
    simp [tableOf]
  rw [htbl] at heq
  rw [show ([List.replicate D (1 : ℝ)]).length = 1 from rfl,
    peTable_take_one D 5000 (by norm_num)] at heq
  simp only [List.zipWith_cons_cons, List.zipWith_nil_right, List.zipWith] at heq
  have hrow := (List.cons_eq_cons.mp heq).1
  have hget := congrArg (fun l => l.get? 0) hrow
  rw [show (PositionalEncoding_init D 5000 defaultKind).d_model = D from rfl] at hget
  simp only [List.get?_zipWith', replicate_get_zero D hD0,
    peRow_get_zero D hD0] at hget
  simp at hget
  exact hsq hget.symm

/-- Witness for `scaled_vs_unscaled_diverge` at `D = 2`. -/
theorem scaled_vs_unscaled_diverge_witness :
    PositionalEncoding_init_checked 0 5000 defaultKind = none ∧
    Real.sqrt ((2 : ℕ) : ℝ) ≠ 1 ∧
    ∃ x : List (List ℝ),
      (ScaledPositionalEncoding_forward (PositionalEncoding_init 2 5000 defaultKind)
          defaultKind 1 x).2 ≠
      (PositionalEncoding_forward (PositionalEncoding_init 2 5000 defaultKind)
          defaultKind x).2 :=
  scaled_vs_unscaled_diverge 2 (by decide) (by decide)
    (PositionalEncoding_init 2 5000 defaultKind)
    (by rw [PositionalEncoding_init_checked, if_neg (by decide)])

end InputLayerModel
